import Mathlib

/-!
# Verification of the staticfuzz bounded-capacity memory store
# with command-interception pipeline

Shallow embedding of `staticfuzz.py` (the `/new_memory` submission
pipeline, the `Memory` store, and the `SlashCommand` dispatch), with
theorems checking the natural-language specification against the code.

Python strings are embedded as `List Char` (`PyStr`), and the Python
string operations used by the source (`str.strip`, `str.lower`,
`str.replace(pat, '')`, `str.split(' ')`, prefix matching) are given
executable models below.  External collaborators (the datastore clock
and id assignment, the image probe `uri_valid_image`/`glitch`, the
danbooru HTTP search, and `random.choice`) are supplied as explicit
inputs in an `Env` record, so that the pipeline is a pure function.
-/

namespace Staticfuzz

/-- Python strings, embedded as lists of characters (`len` on a Python
`str` counts code points, matching `List.length` here). -/
abbrev PyStr := List Char

/-- Coerce a Lean string literal to the `PyStr` embedding. -/
def pys (s : String) : PyStr := s.data

/-- The whitespace characters recognised by Python's `str.strip()` /
`str.split()` (ASCII fragment: space, tab, newline, carriage return,
vertical tab, form feed). -/
def isSpaceChar (c : Char) : Bool :=
  c == ' ' || c == '\t' || c == '\n' || c == '\r' ||
  c == '\x0b' || c == '\x0c'

/-- Python `str.lower()` (character-wise lowering, `Char.toLower` is
the ASCII lowering used by every string the source lowers). -/
def pyLower (s : PyStr) : PyStr := s.map Char.toLower

/-- Python `str.strip()`: remove whitespace from both ends. -/
def pyStrip (s : PyStr) : PyStr :=
  ((s.dropWhile isSpaceChar).reverse.dropWhile isSpaceChar).reverse

/-- `re.match(r'%s\s*' % pattern, text)` with a literal `pattern`:
since `\s*` matches the empty string and `re.match` anchors at the
start, the regex succeeds exactly when `text` starts with `pattern`. -/
def pyStartsWith (pat s : PyStr) : Bool := pat.isPrefixOf s

/-- Python `text.replace(pattern, '')`: delete every (non-overlapping,
left-to-right) occurrence of `pattern`.  Structured with explicit fuel
so that the definition is kernel-computable; the scan consumes at least
one character per step, so fuel `s.length` (supplied by `pyDeleteAll`)
always suffices and the fuel-exhausted branch is never taken. -/
def pyDeleteAllFuel (pat : PyStr) : Nat → PyStr → PyStr
  | _, [] => []
  | 0, s => s
  | fuel + 1, c :: rest =>
    if pat ≠ [] ∧ pat.isPrefixOf (c :: rest) then
      pyDeleteAllFuel pat fuel ((c :: rest).drop pat.length)
    else
      c :: pyDeleteAllFuel pat fuel rest

/-- Python `text.replace(pattern, '')`. -/
def pyDeleteAll (pat s : PyStr) : PyStr := pyDeleteAllFuel pat s.length s

/-- Python `text.split(' ')`: split on each single space, keeping empty
fields (`''.split(' ') == ['']`). -/
def pySplitSpace : PyStr → List PyStr
  | [] => [[]]
  | c :: rest =>
    match pySplitSpace rest with
    | [] => [[]]
    | w :: ws => if c = ' ' then [] :: w :: ws else (c :: w) :: ws

/-- A stored memory (`class Memory(ndb.Model)`): datastore key id,
text, creation timestamp (`auto_now_add`), and the optional base64
thumbnail. -/
structure Memory where
  id : Nat
  text : PyStr
  timestamp : Nat
  base64_image : Option PyStr
deriving DecidableEq, Repr

/-- Configuration surface read by the pipeline (`app.config`). -/
structure Config where
  whisperSecret : PyStr
  loginFail : PyStr
  errorDanbooru : PyStr
  errorTooLong : PyStr
  errorUnoriginal : PyStr
  maxCharacters : Nat

/-- External collaborators of one submission, supplied as data:
* `cfg` — the configuration;
* `imageProbe` — `uri_valid_image` composed with `glitch_from_url`
  (`none` when the text is not a reachable whitelisted image URI);
* `danbooruResults` — the `file_url` fields of the parsed JSON body
  returned by the danbooru tag-search HTTP call;
* `danbooruPick` — the index drawn by `random.choice` (reduced modulo
  the number of results);
* `newId`, `now` — the datastore id and `auto_now_add` timestamp that
  the datastore would assign to a memory inserted by this submission. -/
structure Env where
  cfg : Config
  imageProbe : PyStr → Option PyStr
  danbooruResults : List PyStr
  danbooruPick : Nat
  newId : Nat
  now : Nat

/-- `Memory.create(text)`: build the record, attaching the thumbnail
exactly when the image probe succeeds on the text. -/
def Memory.create (env : Env) (text : PyStr) : Memory :=
  { id := env.newId
    text := text
    timestamp := env.now
    base64_image := env.imageProbe text }

/-- The Python exceptions the embedded fragment can raise:
`TypeError` (a callback invoked with the wrong number of arguments)
and `IndexError` (indexing into an empty string). -/
inductive PyError where
  | typeError
  | indexError
deriving DecidableEq, Repr

/-- An HTTP-level response value: either the redirect to
`show_memories`, or a `(message, status-code)` pair. -/
inductive RespValue where
  | redirect
  | message (msg : PyStr) (code : Nat)
deriving DecidableEq, Repr

/-- `SlashCommandResponse`: the source only ever constructs
`(create_memory=True, value=<memory text>)` or
`(create_memory=False, value=<response>)`, embedded as the two
constructors here. -/
inductive SlashCommandResponse where
  | createMemory (text : PyStr)
  | serveResponse (r : RespValue)
deriving DecidableEq, Repr

/-- The `create_memory` attribute of a `SlashCommandResponse`. -/
def SlashCommandResponse.create_memory : SlashCommandResponse → Bool
  | .createMemory _ => true
  | .serveResponse _ => false

/-- A slash command: its `NAME` and its `callback` static method.  A
callback receives the environment, the caller session's `deity` flag
and the parsed argument list, and returns the response together with
the updated `deity` flag, or raises (`TypeError` on an argument-count
mismatch, which `SlashCommand.attempt` re-raises unfiltered). -/
structure Command where
  NAME : PyStr
  callback : Env → Bool → List PyStr →
    Except PyError (SlashCommandResponse × Bool)

/-- `SlashLogin.callback(secret_attempt)`: requires exactly one
positional argument (any other arity raises `TypeError` at the call
site); on a match with `WHISPER_SECRET` sets the session's `deity`
flag and redirects, otherwise serves `(LOGIN_FAIL, 401)`. -/
def SlashLogin.callback (env : Env) (deity : Bool) :
    List PyStr → Except PyError (SlashCommandResponse × Bool)
  | [secret_attempt] =>
    if secret_attempt = env.cfg.whisperSecret then
      .ok (.serveResponse .redirect, true)
    else
      .ok (.serveResponse (.message env.cfg.loginFail 401), deity)
  | _ => .error .typeError

/-- `SlashLogout.callback()`: requires zero arguments; clears the
`deity` flag and redirects. -/
def SlashLogout.callback (_env : Env) (_deity : Bool) :
    List PyStr → Except PyError (SlashCommandResponse × Bool)
  | [] => .ok (.serveResponse .redirect, false)
  | _ => .error .typeError

/-- `SlashDanbooru.callback(*args)`: accepts any arity.  With an empty
result set `random.choice` raises `IndexError`, which the source
catches and converts to `(ERROR_DANBOORU, 400)`; otherwise the memory
text is `"http://danbooru.donmai.us" + <chosen file_url>`, the choice
being the element at the externally drawn index. -/
def SlashDanbooru.callback (env : Env) (deity : Bool)
    (_args : List PyStr) : Except PyError (SlashCommandResponse × Bool) :=
  match env.danbooruResults with
  | [] => .ok (.serveResponse (.message env.cfg.errorDanbooru 400), deity)
  | r :: rs =>
    .ok (.createMemory (pys "http://danbooru.donmai.us" ++
            (r :: rs).get ⟨env.danbooruPick % (rs.length + 1),
              Nat.mod_lt _ (Nat.succ_pos _)⟩), deity)

/-- The `SlashLogin` command. -/
def SlashLogin : Command := ⟨pys "login", SlashLogin.callback⟩

/-- The `SlashLogout` command. -/
def SlashLogout : Command := ⟨pys "logout", SlashLogout.callback⟩

/-- The `SlashDanbooru` command. -/
def SlashDanbooru : Command := ⟨pys "danbooru", SlashDanbooru.callback⟩

/-- The fixed command list of `new_memory`:
`[SlashLogin, SlashLogout, SlashDanbooru]`. -/
def slash_commands : List Command := [SlashLogin, SlashLogout, SlashDanbooru]

/-- `SlashCommand.attempt(text)`: lower-case and strip the text; if it
does not start with `'/' + NAME` (the reduction of
`re.match(r'/NAME\s*', text)`), decline with `none`.  Otherwise delete
every occurrence of the pattern (`text.replace(pattern, '')`), split
the remainder on single spaces, strip each piece and drop the empty
ones, and invoke the callback on the resulting argument list.  A
callback exception is re-raised unfiltered (the source's bare
`except: raise`). -/
def SlashCommand.attempt (c : Command) (env : Env) (deity : Bool)
    (text : PyStr) : Option (Except PyError (SlashCommandResponse × Bool)) :=
  let t := pyStrip (pyLower text)
  let pattern := '/' :: c.NAME
  if pyStartsWith pattern t then
    let t2 := pyDeleteAll pattern t
    let args := ((pySplitSpace t2).map pyStrip).filter (fun a => !a.isEmpty)
    some (c.callback env deity args)
  else
    none

/-- The `for slash_command in slash_commands` loop of `new_memory`:
try each command in order on the (unchanged) submitted text; the first
one whose `attempt` is not `None` is authoritative — its exception
propagates, or its response is returned together with the updated
`deity` flag.  If none matches, `(none, deity)` falls through. -/
def dispatchLoop (env : Env) (deity : Bool) (text : PyStr) :
    List Command → Except PyError (Option SlashCommandResponse × Bool)
  | [] => .ok (none, deity)
  | c :: cs =>
    match SlashCommand.attempt c env deity text with
    | none => dispatchLoop env deity text cs
    | some (.error e) => .error e
    | some (.ok (r, deity2)) => .ok (some r, deity2)

/-- Strict "older" order on memories, as produced by
`Memory.query().order(Memory.timestamp)`: ascending timestamp, with
the datastore's implicit final sort by key breaking ties by id. -/
def olderThan (a b : Memory) : Bool :=
  decide (a.timestamp < b.timestamp ∨
    (a.timestamp = b.timestamp ∧ a.id < b.id))

/-- `Memory.query().order(Memory.timestamp).get(keys_only=True)`: the
memory that is first in (timestamp, id) order, `none` on an empty
store. -/
def oldest : List Memory → Option Memory
  | [] => none
  | m :: ms =>
    match oldest ms with
    | none => some m
    | some o => some (if olderThan o m then o else m)

/-- Datastore key deletion: remove the (first) record with the given
id; a no-op when the id is absent. -/
def deleteById : List Memory → Nat → List Memory
  | [], _ => []
  | m :: ms, i => if m.id = i then ms else m :: deleteById ms i

/-- One iteration body of the eviction loop: delete the record returned
by the oldest-first query (a no-op on an empty store, which the loop
guard makes unreachable). -/
def deleteOldest (ms : List Memory) : List Memory :=
  match oldest ms with
  | none => ms
  | some m => deleteById ms m.id

/-- The `while Memory.query().count() == 10:` eviction loop, with
explicit fuel so that the definition is kernel-computable.  Each
iteration removes exactly one record from a 10-record store, so the
loop runs at most once from any state and fuel `ms.length + 1`
(supplied by `evictLoop`) always suffices; the fuel-exhausted branch
is never taken. -/
def evictLoopFuel : Nat → List Memory → List Memory
  | 0, ms => ms
  | fuel + 1, ms =>
    if ms.length = 10 then evictLoopFuel fuel (deleteOldest ms) else ms

/-- The pre-insert eviction step of `new_memory`. -/
def evictLoop (ms : List Memory) : List Memory :=
  evictLoopFuel (ms.length + 1) ms

/-- `validate(memory_text)`: `None` on success, else the 400 payload.
The three checks, in source order: empty text, text longer than
`MAX_CHARACTERS`, and an exact-text duplicate already in the store
(`Memory.query(Memory.text == memory_text).count() > 0`). -/
def validate (cfg : Config) (repo : List Memory) (memory_text : PyStr) :
    Option (PyStr × Nat) :=
  if memory_text.length = 0 then
    some (pys "Too short!", 400)
  else if cfg.maxCharacters < memory_text.length then
    some (cfg.errorTooLong, 400)
  else if 0 < repo.countP (fun m => m.text == memory_text) then
    some (cfg.errorUnoriginal, 400)
  else
    none

/-- The shared mutable state a submission acts on: the memory store and
the caller session's `deity` flag. -/
structure State where
  repo : List Memory
  deity : Bool
deriving Repr

/-- The observable effect of one (non-raising) `/new_memory` request:
the HTTP response, the resulting store and `deity` flag, and — as an
observation of which branch returned — the memory inserted by this
request, if any. -/
structure Outcome where
  resp : RespValue
  repo : List Memory
  deity : Bool
  inserted : Option Memory
deriving DecidableEq, Repr

/-- The tail of `new_memory` after command dispatch (source lines
491-510): the slash-guard (whose `memory_text[0]` raises `IndexError`
on an empty string), then the eviction loop, the insert, and the
success redirect. -/
def finishStore (env : Env) (st : State)
    (original_memory_text memory_text : PyStr) (deity2 : Bool) :
    Except PyError Outcome :=
  match memory_text with
  | [] => .error .indexError
  | c :: _ =>
    if c = '/' ∧ memory_text = original_memory_text then
      .ok ⟨.message (pys "Invalid Slash Command") 400, st.repo, deity2, none⟩
    else
      let repo2 := evictLoop st.repo
      let m := Memory.create env memory_text
      .ok ⟨.redirect, repo2 ++ [m], deity2, some m⟩

/-- The `/new_memory` request handler: strip the form text, validate
(any failure returns its 400 payload with the store untouched), run
the command dispatch loop (a terminal command response is returned
immediately; a create-memory response replaces the text), then the
slash-guard and the evict-then-insert commit. -/
def new_memory (env : Env) (st : State) (raw : PyStr) :
    Except PyError Outcome :=
  let memory_text := pyStrip raw
  let original_memory_text := memory_text
  match validate env.cfg st.repo memory_text with
  | some payload =>
    .ok ⟨.message payload.1 payload.2, st.repo, st.deity, none⟩
  | none =>
    match dispatchLoop env st.deity memory_text slash_commands with
    | .error e => .error e
    | .ok (some (.serveResponse r), deity2) =>
      .ok ⟨r, st.repo, deity2, none⟩
    | .ok (some (.createMemory t), deity2) =>
      finishStore env st original_memory_text t deity2
    | .ok (none, deity2) =>
      finishStore env st original_memory_text original_memory_text deity2

/-- Run a sequence of submissions.  A submission that raises leaves the
state unchanged (the exception aborts the request before any write);
one that returns carries the updated store and session flag forward. -/
def runSubmissions (st : State) : List (Env × PyStr) → State
  | [] => st
  | (env, raw) :: rest =>
    match new_memory env st raw with
    | .error _ => runSubmissions st rest
    | .ok o => runSubmissions ⟨o.repo, o.deity⟩ rest

/-- Modelled from the spec: the spec's matching condition for command
dispatch, "the lower-cased, trimmed text starts with `/` + its name
(optionally followed by whitespace and arguments)" — i.e. after the
name the text must end or continue with a whitespace character.  Kept
separate from `SlashCommand.attempt` (which embeds the source) so the
two can be compared. -/
def specMatches (name : PyStr) (text : PyStr) : Bool :=
  let t := pyStrip (pyLower text)
  let pattern := '/' :: name
  pattern.isPrefixOf t &&
    (match t.drop pattern.length with
     | [] => true
     | c :: _ => isSpaceChar c)

/-! ## Concrete sample data for witnesses -/

/-- A concrete configuration used to evaluate the pipeline on sample
inputs. -/
def sampleCfg : Config :=
  ⟨pys "abc", pys "login failed", pys "danbooru error", pys "too long",
   pys "unoriginal", 140⟩

/-- A concrete environment (no image probe hits, empty danbooru result
set) used to evaluate the pipeline on sample inputs. -/
def sampleEnv : Env := ⟨sampleCfg, fun _ => none, [], 0, 100, 100⟩

/-- A concrete store at full capacity (ten memories with distinct
texts, timestamps `0..9`). -/
def repo10 : List Memory :=
  (List.range 10).map fun i =>
    { id := i, text := 'm' :: Nat.toDigits 10 i, timestamp := i,
      base64_image := none }

/-! ## Lemmas about the eviction machinery -/

theorem olderThan_irrefl (a : Memory) : olderThan a a = false := by
  simp [olderThan]

theorem olderThan_asymm {a b : Memory} (h : olderThan a b = true) :
    olderThan b a = false := by
  simp [olderThan] at h ⊢
  omega

theorem olderThan_false_trans {x o a : Memory} (h1 : olderThan x o = false)
    (h2 : olderThan o a = false) : olderThan x a = false := by
  simp [olderThan] at h1 h2 ⊢
  omega

theorem oldest_eq_none_iff {ms : List Memory} : oldest ms = none ↔ ms = [] := by
  cases ms with
  | nil => simp [oldest]
  | cons m l =>
    simp only [oldest]
    cases oldest l <;> simp

theorem oldest_mem : ∀ {ms : List Memory} {m : Memory},
    oldest ms = some m → m ∈ ms := by
  intro ms
  induction ms with
  | nil => intro m h; cases h
  | cons a l ih =>
    intro m h
    rw [oldest] at h
    cases hl : oldest l with
    | none =>
      rw [hl] at h
      cases h
      exact List.mem_cons_self a l
    | some o =>
      rw [hl] at h
      cases h
      by_cases hc : olderThan o a = true
      · rw [if_pos hc]
        exact List.mem_cons_of_mem a (ih hl)
      · rw [if_neg hc]
        exact List.mem_cons_self a l

theorem oldest_min : ∀ {ms : List Memory} {m : Memory},
    oldest ms = some m → ∀ x ∈ ms, olderThan x m = false := by
  intro ms
  induction ms with
  | nil => intro m h; cases h
  | cons a l ih =>
    intro m h x hx
    rw [oldest] at h
    cases hl : oldest l with
    | none =>
      rw [hl] at h
      cases h
      have : l = [] := oldest_eq_none_iff.mp hl
      subst this
      rcases List.mem_cons.mp hx with rfl | hxl
      · exact olderThan_irrefl x
      · cases hxl
    | some o =>
      rw [hl] at h
      cases h
      by_cases hc : olderThan o a = true
      · rw [if_pos hc]
        rcases List.mem_cons.mp hx with rfl | hxl
        · exact olderThan_asymm hc
        · exact ih hl x hxl
      · rw [if_neg hc]
        rcases List.mem_cons.mp hx with rfl | hxl
        · exact olderThan_irrefl x
        · exact olderThan_false_trans (ih hl x hxl)
            (Bool.eq_false_iff.mpr hc)

theorem deleteById_length : ∀ {ms : List Memory} {i : Nat},
    (∃ x ∈ ms, x.id = i) → (deleteById ms i).length + 1 = ms.length := by
  intro ms
  induction ms with
  | nil =>
    intro i h
    rcases h with ⟨x, hx, _⟩
    cases hx
  | cons a l ih =>
    intro i h
    by_cases ha : a.id = i
    · simp [deleteById, ha]
    · rcases h with ⟨x, hx, hxi⟩
      rcases List.mem_cons.mp hx with rfl | hxl
      · exact absurd hxi ha
      · rw [deleteById, if_neg ha, List.length_cons, List.length_cons,
          ih ⟨x, hxl, hxi⟩]

theorem deleteOldest_length {ms : List Memory} (h : ms ≠ []) :
    (deleteOldest ms).length + 1 = ms.length := by
  rw [deleteOldest]
  cases ho : oldest ms with
  | none => exact absurd (oldest_eq_none_iff.mp ho) h
  | some m => exact deleteById_length ⟨m, oldest_mem ho, rfl⟩

theorem evictLoopFuel_succ (fuel : Nat) (ms : List Memory) :
    evictLoopFuel (fuel + 1) ms =
      if ms.length = 10 then evictLoopFuel fuel (deleteOldest ms) else ms := rfl

theorem evictLoop_of_ne {ms : List Memory} (h : ms.length ≠ 10) :
    evictLoop ms = ms := by
  rw [evictLoop, evictLoopFuel_succ, if_neg h]

theorem evictLoop_of_eq {ms : List Memory} (h : ms.length = 10) :
    evictLoop ms = deleteOldest ms := by
  have hne : ms ≠ [] := by
    intro hnil
    rw [hnil] at h
    cases h
  have h9 : (deleteOldest ms).length = 9 := by
    have := deleteOldest_length hne
    omega
  rw [evictLoop, evictLoopFuel_succ, if_pos h, h]
  rw [evictLoopFuel_succ, if_neg (by omega : (deleteOldest ms).length ≠ 10)]

theorem evictLoop_length_le {ms : List Memory} (h : ms.length ≤ 10) :
    (evictLoop ms).length ≤ 9 := by
  by_cases h10 : ms.length = 10
  · rw [evictLoop_of_eq h10]
    have hne : ms ≠ [] := by
      intro hnil
      rw [hnil] at h10
      cases h10
    have := deleteOldest_length hne
    omega
  · rw [evictLoop_of_ne h10]
    omega

/-! ## Case analysis of the pipeline -/

theorem finishStore_cases {env st orig mt d2 o}
    (h : finishStore env st orig mt d2 = .ok o) :
    (o.repo = st.repo ∧ o.inserted = none) ∨
    (∃ m, o.inserted = some m ∧ o.repo = evictLoop st.repo ++ [m]) := by
  simp only [finishStore.eq_def] at h
  split at h
  · cases h
  · split at h
    · cases h
      exact Or.inl ⟨rfl, rfl⟩
    · cases h
      exact Or.inr ⟨_, rfl, rfl⟩

theorem new_memory_cases {env st raw o}
    (h : new_memory env st raw = .ok o) :
    (o.repo = st.repo ∧ o.inserted = none) ∨
    (∃ m, o.inserted = some m ∧ o.repo = evictLoop st.repo ++ [m]) := by
  simp only [new_memory.eq_def] at h
  split at h
  · cases h
    exact Or.inl ⟨rfl, rfl⟩
  · split at h
    · cases h
    · cases h
      exact Or.inl ⟨rfl, rfl⟩
    · exact finishStore_cases h
    · exact finishStore_cases h

theorem new_memory_length {env st raw o}
    (h : new_memory env st raw = .ok o) (hl : st.repo.length ≤ 10) :
    o.repo.length ≤ 10 := by
  rcases new_memory_cases h with ⟨hr, _⟩ | ⟨m, _, hr⟩
  · rw [hr]
    exact hl
  · rw [hr, List.length_append, List.length_cons, List.length_nil]
    have := evictLoop_length_le hl
    omega

theorem runSubmissions_length :
    ∀ (subs : List (Env × PyStr)) (st : State), st.repo.length ≤ 10 →
      (runSubmissions st subs).repo.length ≤ 10 := by
  intro subs
  induction subs with
  | nil => intro st h; exact h
  | cons p rest ih =>
    intro st h
    rcases p with ⟨env, raw⟩
    rw [runSubmissions]
    cases hn : new_memory env st raw with
    | error e => exact ih st h
    | ok o => exact ih ⟨o.repo, o.deity⟩ (new_memory_length hn h)

/-! ## Claim theorems -/

/-- C1: for every sequence of successful memory submissions starting
from a repository holding at most 10 memories, the repository count
never exceeds 10 at any externally observable point (i.e. after every
prefix of the sequence); moreover, on each accepted submission the
store committed by the request is the eviction step's result (already
at most 9 records) with the single new memory appended — eviction runs
to completion before the insertion. -/
theorem capacity_invariant (st : State) (subs : List (Env × PyStr)) (n : Nat)
    (h : st.repo.length ≤ 10) :
    (runSubmissions st (subs.take n)).repo.length ≤ 10 ∧
    (∀ env raw o m, new_memory env st raw = Except.ok o → o.inserted = some m →
      o.repo = evictLoop st.repo ++ [m] ∧ (evictLoop st.repo).length ≤ 9) := by
  constructor
  · exact runSubmissions_length _ st h
  · intro env raw o m hok hins
    rcases new_memory_cases hok with ⟨_, hnone⟩ | ⟨m', hm', hr⟩
    · rw [hins] at hnone
      cases hnone
    · rw [hins] at hm'
      injection hm' with hmm
      subst hmm
      exact ⟨hr, evictLoop_length_le h⟩

/-- Witness for C1 at a concrete input: one submission of `"a"` to an
empty store keeps the count within capacity. -/
theorem capacity_invariant_witness :
    (runSubmissions ⟨[], false⟩ ([(sampleEnv, pys "a")].take 1)).repo.length ≤ 10 :=
  (capacity_invariant ⟨[], false⟩ [(sampleEnv, pys "a")] 1 (by decide)).1

/-- C2: whenever the store is at full capacity (count 10) and a
submission is accepted (a memory is inserted), the committed store is
the old one with exactly one record removed — a record that is minimal
in (`createdAt`, then `id`) order, i.e. the oldest with ties broken by
smallest id — and the new memory appended. -/
theorem eviction_order {env : Env} {st : State} {raw : PyStr} {o : Outcome}
    {m : Memory}
    (h10 : st.repo.length = 10)
    (hok : new_memory env st raw = .ok o)
    (hins : o.inserted = some m) :
    ∃ victim, oldest st.repo = some victim ∧ victim ∈ st.repo ∧
      (∀ x ∈ st.repo, olderThan x victim = false) ∧
      o.repo = deleteById st.repo victim.id ++ [m] ∧
      (deleteById st.repo victim.id).length + 1 = st.repo.length := by
  rcases new_memory_cases hok with ⟨_, hnone⟩ | ⟨m', hm', hr⟩
  · rw [hins] at hnone
    cases hnone
  · rw [hins] at hm'
    injection hm' with hmm
    subst hmm
    have hne : st.repo ≠ [] := by
      intro hn
      rw [hn] at h10
      cases h10
    cases ho : oldest st.repo with
    | none => exact absurd (oldest_eq_none_iff.mp ho) hne
    | some victim =>
      refine ⟨victim, rfl, oldest_mem ho, oldest_min ho, ?_, ?_⟩
      · rw [hr, evictLoop_of_eq h10, deleteOldest, ho]
      · exact deleteById_length ⟨victim, oldest_mem ho, rfl⟩

/-- Witness for C2 at a concrete input: submitting `"hello"` to the
full store `repo10` evicts exactly one minimal record. -/
theorem eviction_order_witness :
    ∃ victim, oldest repo10 = some victim ∧ victim ∈ repo10 ∧
      (∀ x ∈ repo10, olderThan x victim = false) ∧
      (evictLoop repo10 ++ [Memory.create sampleEnv (pys "hello")]) =
        deleteById repo10 victim.id ++ [Memory.create sampleEnv (pys "hello")] ∧
      (deleteById repo10 victim.id).length + 1 = repo10.length :=
  @eviction_order sampleEnv ⟨repo10, false⟩ (pys "hello")
    ⟨.redirect, evictLoop repo10 ++ [Memory.create sampleEnv (pys "hello")],
      false, some (Memory.create sampleEnv (pys "hello"))⟩
    (Memory.create sampleEnv (pys "hello"))
    (by decide) (by rfl) rfl

/-- C7 counterexample: from an over-full store of 11 records the
eviction loop (`while count() == 10`) does not bring the count below
capacity — its guard is an equality test, so at count 11 it exits
immediately and the count stays at 11. -/
theorem evict_overfull_cex :
    ((List.range 11).map (fun i =>
        ({ id := i, text := pys "m", timestamp := i,
           base64_image := none } : Memory))).length ≥ 10 ∧
    ¬ ((evictLoop ((List.range 11).map (fun i =>
        ({ id := i, text := pys "m", timestamp := i,
           base64_image := none } : Memory)))).length < 10) := by
  decide

/-- C7 amended: the pre-insert eviction loop brings the store below
capacity exactly from a state holding precisely `MAX_MEMORIES` (10)
records, leaving 9; from any other count — including over-full counts
strictly greater than 10 — its equality guard fails and it leaves the
store unchanged. -/
theorem evict_loop_contract (ms : List Memory) :
    (ms.length = 10 → (evictLoop ms).length = 9) ∧
    (ms.length ≠ 10 → evictLoop ms = ms) := by
  constructor
  · intro h
    rw [evictLoop_of_eq h]
    have hne : ms ≠ [] := by
      intro hn
      rw [hn] at h
      cases h
    have := deleteOldest_length hne
    omega
  · exact evictLoop_of_ne

/-- Witness for the amended C7 at a concrete input: the loop drops the
full store `repo10` to 9 records. -/
theorem evict_loop_contract_witness :
    (evictLoop repo10).length = 9 :=
  (evict_loop_contract repo10).1 (by decide)

/-! ## Callback and dispatch lemmas -/

theorem login_callback_error {env : Env} {d : Bool} {args : List PyStr} {e : PyError}
    (h : SlashLogin.callback env d args = .error e) : e = .typeError := by
  rw [SlashLogin.callback.eq_def] at h
  split at h
  · split at h <;> cases h
  · injection h with h2
    exact h2.symm

theorem logout_callback_error {env : Env} {d : Bool} {args : List PyStr} {e : PyError}
    (h : SlashLogout.callback env d args = .error e) : e = .typeError := by
  rw [SlashLogout.callback.eq_def] at h
  split at h
  · cases h
  · injection h with h2
    exact h2.symm

theorem danbooru_callback_no_error {env : Env} {d : Bool} {args : List PyStr} {e : PyError}
    (h : SlashDanbooru.callback env d args = .error e) : False := by
  rw [SlashDanbooru.callback.eq_def] at h
  split at h <;> cases h

theorem login_callback_no_createMemory {env : Env} {d : Bool} {args : List PyStr}
    {t : PyStr} {d2 : Bool}
    (h : SlashLogin.callback env d args = .ok (.createMemory t, d2)) : False := by
  rw [SlashLogin.callback.eq_def] at h
  split at h
  · split at h <;> cases h
  · cases h

theorem logout_callback_no_createMemory {env : Env} {d : Bool} {args : List PyStr}
    {t : PyStr} {d2 : Bool}
    (h : SlashLogout.callback env d args = .ok (.createMemory t, d2)) : False := by
  rw [SlashLogout.callback.eq_def] at h
  split at h <;> cases h

theorem danbooru_callback_createMemory {env : Env} {d : Bool} {args : List PyStr}
    {t : PyStr} {d2 : Bool}
    (h : SlashDanbooru.callback env d args = .ok (.createMemory t, d2)) :
    t ≠ [] := by
  rw [SlashDanbooru.callback.eq_def] at h
  split at h
  · cases h
  · injection h with h2
    injection h2 with h3 h4
    injection h3 with h5
    subst h5
    intro hc
    exact absurd (List.append_eq_nil.mp hc).1 (by decide)

theorem attempt_some {c : Command} {env : Env} {d : Bool} {text : PyStr}
    {x : Except PyError (SlashCommandResponse × Bool)}
    (h : SlashCommand.attempt c env d text = some x) :
    ∃ args, c.callback env d args = x := by
  simp only [SlashCommand.attempt] at h
  split at h
  · exact ⟨_, Option.some.inj h⟩
  · cases h

theorem dispatchLoop_error {env : Env} {d : Bool} {text : PyStr}
    {cmds : List Command} {e : PyError}
    (h : dispatchLoop env d text cmds = .error e) :
    ∃ c ∈ cmds, ∃ args, c.callback env d args = .error e := by
  induction cmds with
  | nil => cases h
  | cons c cs ih =>
    simp only [dispatchLoop] at h
    split at h
    · rcases ih h with ⟨c', hc', args, hcb⟩
      exact ⟨c', List.mem_cons_of_mem c hc', args, hcb⟩
    · rename_i heq
      injection h with h2
      subst h2
      rcases attempt_some heq with ⟨args, hcb⟩
      exact ⟨c, List.mem_cons_self c cs, args, hcb⟩
    · cases h

theorem dispatchLoop_some {env : Env} {d : Bool} {text : PyStr}
    {cmds : List Command} {r : SlashCommandResponse} {d2 : Bool}
    (h : dispatchLoop env d text cmds = .ok (some r, d2)) :
    ∃ c ∈ cmds, ∃ args, c.callback env d args = .ok (r, d2) := by
  induction cmds with
  | nil => cases h
  | cons c cs ih =>
    simp only [dispatchLoop] at h
    split at h
    · rcases ih h with ⟨c', hc', args, hcb⟩
      exact ⟨c', List.mem_cons_of_mem c hc', args, hcb⟩
    · cases h
    · rename_i r' d2' heq
      injection h with h2
      injection h2 with h3 h4
      rcases attempt_some heq with ⟨args, hcb⟩
      refine ⟨c, List.mem_cons_self c cs, args, ?_⟩
      rw [hcb]
      rw [Option.some.inj h3, h4]

theorem dispatchLoop_none {env : Env} {d : Bool} {text : PyStr}
    {cmds : List Command}
    (h : ∀ c ∈ cmds, SlashCommand.attempt c env d text = none) :
    dispatchLoop env d text cmds = .ok (none, d) := by
  induction cmds with
  | nil => rfl
  | cons c cs ih =>
    simp only [dispatchLoop]
    rw [h c (List.mem_cons_self c cs)]
    exact ih (fun c' hc' => h c' (List.mem_cons_of_mem c hc'))


theorem validate_none_ne_nil {cfg : Config} {repo : List Memory} {t : PyStr}
    (h : validate cfg repo t = none) : t ≠ [] := by
  intro hc
  subst hc
  simp [validate] at h

theorem finishStore_error {env : Env} {st : State} {orig mt : PyStr} {d2 : Bool}
    {e : PyError}
    (h : finishStore env st orig mt d2 = .error e) : mt = [] := by
  simp only [finishStore.eq_def] at h
  split at h
  · rfl
  · split at h <;> cases h

/-- C10: the slash-guard's `memory_text[0]` indexing never raises
`IndexError`: validation rejects an empty trimmed text before dispatch
runs, and the only create-memory command outcome (danbooru's) always
yields a non-empty replacement string, so the guard always reads from a
non-empty string. -/
theorem slash_guard_index_safe (env : Env) (st : State) (raw : PyStr) :
    new_memory env st raw ≠ .error .indexError := by
  intro h
  simp only [new_memory.eq_def] at h
  split at h
  · cases h
  · rename_i hv
    split at h
    · rename_i e heq
      injection h with h2
      subst h2
      rcases dispatchLoop_error heq with ⟨c, hc, args, hcb⟩
      simp only [slash_commands, List.mem_cons, List.not_mem_nil, or_false] at hc
      rcases hc with rfl | rfl | rfl
      · exact PyError.noConfusion (login_callback_error hcb)
      · exact PyError.noConfusion (@logout_callback_error env st.deity args PyError.indexError hcb)
      · exact @danbooru_callback_no_error env st.deity args PyError.indexError hcb
    · cases h
    · rename_i t d2 heq
      have ht := finishStore_error h
      subst ht
      rcases dispatchLoop_some heq with ⟨c, hc, args, hcb⟩
      simp only [slash_commands, List.mem_cons, List.not_mem_nil, or_false] at hc
      rcases hc with rfl | rfl | rfl
      · exact login_callback_no_createMemory hcb
      · exact @logout_callback_no_createMemory env st.deity args [] d2 hcb
      · exact @danbooru_callback_createMemory env st.deity args [] d2 hcb rfl
    · rename_i d2 heq
      have ht := finishStore_error h
      exact validate_none_ne_nil hv ht


/-- Helper: a dispatch-stage exception propagates out of `new_memory`
unconverted. -/
theorem new_memory_dispatch_error {env : Env} {st : State} {raw : PyStr}
    {e : PyError}
    (hv : validate env.cfg st.repo (pyStrip raw) = none)
    (hd : dispatchLoop env st.deity (pyStrip raw) slash_commands = .error e) :
    new_memory env st raw = .error e := by
  simp only [new_memory.eq_def, hv, hd]

/-- C9: if a matched command's execute step fails (e.g. `/login` with
no argument, whose callback requires one positional argument), the
failure propagates unfiltered to the pipeline caller — dispatch
performs no catch-and-convert to a 400 — and a raising submission
leaves the repository (and session) state unchanged. -/
theorem dispatch_failure_propagates :
    (∀ (env : Env) (st : State) (raw : PyStr) (e : PyError),
      validate env.cfg st.repo (pyStrip raw) = none →
      dispatchLoop env st.deity (pyStrip raw) slash_commands = .error e →
      new_memory env st raw = .error e) ∧
    (∀ (env : Env) (st : State),
      validate env.cfg st.repo (pys "/login") = none →
      new_memory env st (pys "/login") = .error .typeError) ∧
    (∀ (env : Env) (st : State) (raw : PyStr) (e : PyError),
      new_memory env st raw = .error e →
      runSubmissions st [(env, raw)] = st) := by
  refine ⟨?_, ?_, ?_⟩
  · intro env st raw e hv hd
    exact new_memory_dispatch_error hv hd
  · intro env st hv
    exact new_memory_dispatch_error hv rfl
  · intro env st raw e h
    simp only [runSubmissions, h]

/-- Witness for C9 at a concrete input: submitting exactly `"/login"`
raises `TypeError` out of the pipeline. -/
theorem dispatch_failure_propagates_witness :
    new_memory sampleEnv ⟨[], false⟩ (pys "/login") = .error .typeError :=
  dispatch_failure_propagates.2.1 sampleEnv ⟨[], false⟩ rfl

/-- C8: the danbooru command serves `(ERROR_DANBOORU, 400)` whenever
the external search returns zero results (and, through the pipeline,
the store and session are unmodified in that case); on a non-empty
result set it yields a create-memory outcome whose text is the full
URL (`"http://danbooru.donmai.us"` + `file_url`) of the element at the
externally drawn `random.choice` index — for every possible draw, so
the choice ranges over the whole result set. -/
theorem danbooru_contract :
    (∀ (env : Env) (deity : Bool) (args : List PyStr),
      env.danbooruResults = [] →
      SlashDanbooru.callback env deity args =
        .ok (.serveResponse (.message env.cfg.errorDanbooru 400), deity)) ∧
    (∀ (env : Env) (deity : Bool) (args : List PyStr) (r : PyStr)
        (rs : List PyStr),
      env.danbooruResults = r :: rs →
      SlashDanbooru.callback env deity args =
        .ok (.createMemory (pys "http://danbooru.donmai.us" ++
          (r :: rs).get ⟨env.danbooruPick % (rs.length + 1),
            Nat.mod_lt _ (Nat.succ_pos _)⟩), deity)) ∧
    (∀ (env : Env) (st : State) (raw : PyStr),
      env.danbooruResults = [] →
      validate env.cfg st.repo (pyStrip raw) = none →
      SlashCommand.attempt SlashLogin env st.deity (pyStrip raw) = none →
      SlashCommand.attempt SlashLogout env st.deity (pyStrip raw) = none →
      pyStartsWith ('/' :: Command.NAME SlashDanbooru)
        (pyStrip (pyLower (pyStrip raw))) = true →
      new_memory env st raw = .ok ⟨.message env.cfg.errorDanbooru 400,
        st.repo, st.deity, none⟩) := by
  refine ⟨?_, ?_, ?_⟩
  · intro env deity args h0
    simp only [SlashDanbooru.callback.eq_def, h0]
  · intro env deity args r rs h0
    rw [SlashDanbooru.callback.eq_def, h0]
  · intro env st raw h0 hv h1 h2 h3
    have hatt : SlashCommand.attempt SlashDanbooru env st.deity (pyStrip raw) =
        some (.ok (.serveResponse (.message env.cfg.errorDanbooru 400),
          st.deity)) := by
      simp only [SlashCommand.attempt]
      rw [if_pos h3]
      simp only [SlashDanbooru, SlashDanbooru.callback.eq_def, h0]
    have hd : dispatchLoop env st.deity (pyStrip raw) slash_commands =
        .ok (some (.serveResponse (.message env.cfg.errorDanbooru 400)),
          st.deity) := by
      simp only [slash_commands, dispatchLoop, h1, h2, hatt]
    simp only [new_memory.eq_def, hv, hd]

/-- Witness for C8 at a concrete input: `"/danbooru tag"` with an
empty result set returns the configured 400 and leaves the store
empty. -/
theorem danbooru_contract_witness :
    new_memory sampleEnv ⟨[], false⟩ (pys "/danbooru tag") =
      .ok ⟨.message sampleCfg.errorDanbooru 400, [], false, none⟩ :=
  danbooru_contract.2.2 sampleEnv ⟨[], false⟩ (pys "/danbooru tag")
    rfl rfl rfl rfl rfl

/-- C6 counterexample: a submission that begins with `/` and matches
no command does **not** always produce the 400 "Invalid Slash Command"
response: validation runs first, so when the same text is already
stored the submission returns the configured duplicate message
instead. -/
theorem slash_guard_cex :
    pyStartsWith (pys "/") (pyStrip (pys "/bogus hello")) = true ∧
    SlashCommand.attempt SlashLogin sampleEnv false (pys "/bogus hello") = none ∧
    SlashCommand.attempt SlashLogout sampleEnv false (pys "/bogus hello") = none ∧
    SlashCommand.attempt SlashDanbooru sampleEnv false (pys "/bogus hello") = none ∧
    new_memory sampleEnv
        ⟨[⟨0, pys "/bogus hello", 0, none⟩], false⟩ (pys "/bogus hello") =
      .ok ⟨.message (pys "unoriginal") 400,
        [⟨0, pys "/bogus hello", 0, none⟩], false, none⟩ ∧
    pys "unoriginal" ≠ pys "Invalid Slash Command" :=
  ⟨rfl, rfl, rfl, rfl, rfl, by decide⟩

/-- C6 amended: for every submission that passes validation, begins
with `/` and is matched by no command (dispatch leaves it unchanged),
the pipeline returns the 400 "Invalid Slash Command" response and no
memory is created (store and session unchanged). -/
theorem slash_guard (env : Env) (st : State) (raw : PyStr)
    (hv : validate env.cfg st.repo (pyStrip raw) = none)
    (hsl : (pyStrip raw).head? = some '/')
    (hnm : ∀ c ∈ slash_commands,
      SlashCommand.attempt c env st.deity (pyStrip raw) = none) :
    new_memory env st raw =
      .ok ⟨.message (pys "Invalid Slash Command") 400, st.repo,
        st.deity, none⟩ := by
  have hd := dispatchLoop_none hnm
  simp only [new_memory.eq_def, hv, hd]
  cases hc : pyStrip raw with
  | nil =>
    rw [hc] at hsl
    cases hsl
  | cons c rest =>
    rw [hc] at hsl
    injection hsl with hsl2
    simp only [finishStore.eq_def, hc]
    rw [if_pos ⟨hsl2, trivial⟩]

/-- Witness for the amended C6 at a concrete input: `"/bogus hello"`
against an empty store. -/
theorem slash_guard_witness :
    new_memory sampleEnv ⟨[], false⟩ (pys "/bogus hello") =
      .ok ⟨.message (pys "Invalid Slash Command") 400, [], false, none⟩ :=
  slash_guard sampleEnv ⟨[], false⟩ (pys "/bogus hello") rfl rfl
    (by
      intro c hc
      simp only [slash_commands, List.mem_cons, List.not_mem_nil,
        or_false] at hc
      rcases hc with rfl | rfl | rfl <;> rfl)


/-- C5: validation runs before any command dispatch and is atomic on
failure: whenever the trimmed text is empty, longer than
`MAX_CHARACTERS`, or exactly equal to a stored memory's text — even
when it begins with a command prefix — the submission returns a 400
with the corresponding configured message and neither the store nor
the session flag changes, and no memory is created. -/
theorem validation_precedence (env : Env) (st : State) (raw : PyStr)
    (h : pyStrip raw = [] ∨ env.cfg.maxCharacters < (pyStrip raw).length ∨
      0 < st.repo.countP (fun m => m.text == pyStrip raw)) :
    ∃ msg, new_memory env st raw =
        .ok ⟨.message msg 400, st.repo, st.deity, none⟩ ∧
      (pyStrip raw = [] → msg = pys "Too short!") ∧
      (pyStrip raw ≠ [] → env.cfg.maxCharacters < (pyStrip raw).length →
        msg = env.cfg.errorTooLong) ∧
      (pyStrip raw ≠ [] → ¬ env.cfg.maxCharacters < (pyStrip raw).length →
        msg = env.cfg.errorUnoriginal) := by
  by_cases h0 : pyStrip raw = []
  · have hv : validate env.cfg st.repo (pyStrip raw) =
        some (pys "Too short!", 400) := by
      rw [validate, if_pos (by rw [h0]; rfl)]
    refine ⟨pys "Too short!", ?_, fun _ => rfl,
      fun hne _ => absurd h0 hne, fun hne _ => absurd h0 hne⟩
    simp only [new_memory.eq_def, hv]
  · have hl0 : ¬ (pyStrip raw).length = 0 := by
      intro hc
      exact h0 (List.length_eq_zero.mp hc)
    by_cases h1 : env.cfg.maxCharacters < (pyStrip raw).length
    · have hv : validate env.cfg st.repo (pyStrip raw) =
          some (env.cfg.errorTooLong, 400) := by
        rw [validate, if_neg hl0, if_pos h1]
      refine ⟨env.cfg.errorTooLong, ?_, fun hc => absurd hc h0,
        fun _ _ => rfl, fun _ hc => absurd h1 hc⟩
      simp only [new_memory.eq_def, hv]
    · have h2 : 0 < st.repo.countP (fun m => m.text == pyStrip raw) := by
        rcases h with hc | hc | hc
        · exact absurd hc h0
        · exact absurd hc h1
        · exact hc
      have hv : validate env.cfg st.repo (pyStrip raw) =
          some (env.cfg.errorUnoriginal, 400) := by
        rw [validate, if_neg hl0, if_neg h1, if_pos h2]
      refine ⟨env.cfg.errorUnoriginal, ?_, fun hc => absurd hc h0,
        fun _ hc => absurd hc h1, fun _ _ => rfl⟩
      simp only [new_memory.eq_def, hv]

/-- Witness for C5 at a concrete input: a duplicate submission whose
text starts with the recognised command prefix `/login` is still
rejected with the duplicate 400 and mutates nothing. -/
theorem validation_precedence_witness :
    new_memory sampleEnv ⟨[⟨0, pys "/login abc", 0, none⟩], false⟩
        (pys "/login abc") =
      .ok ⟨.message (pys "unoriginal") 400,
        [⟨0, pys "/login abc", 0, none⟩], false, none⟩ := by
  obtain ⟨msg, h1, _, _, h4⟩ := validation_precedence sampleEnv
    ⟨[⟨0, pys "/login abc", 0, none⟩], false⟩ (pys "/login abc")
    (Or.inr (Or.inr (by decide)))
  rw [h4 (by decide) (by decide)] at h1
  exact h1

/-- C4 counterexample: the claim's matching condition requires the
command name to be followed by whitespace or end-of-string, but
`re.match(r'/login\s*', ...)` also succeeds when other characters
directly follow the name: `"/loginxyz"` matches `SlashLogin` (and the
pipeline answers with the login-failure 401, not with the claimed
no-match behaviour), while the spec-worded condition rejects it. -/
theorem dispatch_match_cex :
    (SlashCommand.attempt SlashLogin sampleEnv false (pys "/loginxyz")).isSome
        = true ∧
    specMatches (pys "login") (pys "/loginxyz") = false ∧
    new_memory sampleEnv ⟨[], false⟩ (pys "/loginxyz") =
      .ok ⟨.message (pys "login failed") 401, [], false, none⟩ :=
  ⟨rfl, rfl, rfl⟩

/-- C4 amended: dispatch tries the commands in the fixed order login,
logout, danbooru; a command matches exactly when the lower-cased,
trimmed input starts with `'/' + name` — even when other characters
directly follow the name; the first matching command's outcome is
authoritative (no further command is tried), and if no command matches
the text proceeds unchanged with the `deity` flag untouched. -/
theorem dispatch_contract (env : Env) (d : Bool) (text : PyStr) :
    (∀ c ∈ slash_commands,
      (SlashCommand.attempt c env d text).isSome =
        pyStartsWith ('/' :: c.NAME) (pyStrip (pyLower text))) ∧
    dispatchLoop env d text slash_commands =
      (match SlashCommand.attempt SlashLogin env d text with
       | some (.error e) => .error e
       | some (.ok (r, d2)) => .ok (some r, d2)
       | none =>
         match SlashCommand.attempt SlashLogout env d text with
         | some (.error e) => .error e
         | some (.ok (r, d2)) => .ok (some r, d2)
         | none =>
           match SlashCommand.attempt SlashDanbooru env d text with
           | some (.error e) => .error e
           | some (.ok (r, d2)) => .ok (some r, d2)
           | none => .ok (none, d)) := by
  constructor
  · intro c hc
    simp only [SlashCommand.attempt]
    split
    · rename_i hcond
      rw [hcond]
      rfl
    · rename_i hcond
      rw [(Bool.not_eq_true _).mp hcond]
      rfl
  · simp only [slash_commands, dispatchLoop]
    cases SlashCommand.attempt SlashLogin env d text with
    | some x => rcases x with e | ⟨r, d2⟩ <;> rfl
    | none =>
      cases SlashCommand.attempt SlashLogout env d text with
      | some x => rcases x with e | ⟨r, d2⟩ <;> rfl
      | none =>
        cases SlashCommand.attempt SlashDanbooru env d text with
        | some x => rcases x with e | ⟨r, d2⟩ <;> rfl
        | none => rfl

/-- Witness for the amended C4 at a concrete input: `SlashLogin`'s
match outcome on `"/logout"` agrees with the prefix condition. -/
theorem dispatch_contract_witness :
    (SlashCommand.attempt SlashLogin sampleEnv false (pys "/logout")).isSome =
      pyStartsWith ('/' :: Command.NAME SlashLogin)
        (pyStrip (pyLower (pys "/logout"))) :=
  (dispatch_contract sampleEnv false (pys "/logout")).1 SlashLogin
    (by simp [slash_commands])


/-! ## String lemmas for the login command -/

theorem dropWhile_space_eq_self {l : PyStr}
    (h : ∀ c, l.head? = some c → isSpaceChar c = false) :
    l.dropWhile isSpaceChar = l := by
  cases l with
  | nil => rfl
  | cons c t => exact List.dropWhile_cons_of_neg (by simp [h c rfl])

theorem pyStrip_eq_self_of_ends {l : PyStr}
    (h1 : ∀ c, l.head? = some c → isSpaceChar c = false)
    (h2 : ∀ c, l.getLast? = some c → isSpaceChar c = false) :
    pyStrip l = l := by
  rw [pyStrip, dropWhile_space_eq_self h1,
    dropWhile_space_eq_self
      (fun c hc => h2 c (by rwa [List.head?_reverse] at hc))]
  exact List.reverse_reverse l

theorem mem_of_head?_eq_some {l : PyStr} {c : Char}
    (h : l.head? = some c) : c ∈ l := by
  cases l with
  | nil => cases h
  | cons a t =>
    injection h with h2
    rw [← h2]
    exact List.mem_cons_self a t

theorem pyStrip_eq_self_of_all {l : PyStr}
    (h : ∀ c ∈ l, isSpaceChar c = false) : pyStrip l = l :=
  pyStrip_eq_self_of_ends
    (fun c hc => h c (mem_of_head?_eq_some hc))
    (fun c hc => h c (List.mem_of_getLast?_eq_some hc))

theorem pySplitSpace_no_space : ∀ {l : PyStr}, (∀ c ∈ l, c ≠ ' ') →
    pySplitSpace l = [l] := by
  intro l
  induction l with
  | nil => intro _; rfl
  | cons c t ih =>
    intro h
    simp only [pySplitSpace,
      ih (fun c' hc' => h c' (List.mem_cons_of_mem c hc'))]
    rw [if_neg (h c (List.mem_cons_self c t))]

theorem pyDeleteAllFuel_not_mem {p0 : Char} {pt : PyStr} :
    ∀ {l : PyStr} {fuel : Nat}, p0 ∉ l →
      pyDeleteAllFuel (p0 :: pt) fuel l = l := by
  intro l
  induction l with
  | nil => intro fuel _; cases fuel <;> rfl
  | cons c t ih =>
    intro fuel h
    have hpc : p0 ≠ c := fun hc => h (hc ▸ List.mem_cons_self c t)
    have hpre : (p0 :: pt).isPrefixOf (c :: t) = false := by
      rw [List.isPrefixOf_cons₂]
      simp [hpc]
    cases fuel with
    | zero => rfl
    | succ fuel =>
      rw [pyDeleteAllFuel, if_neg (by simp [hpre]),
        ih (fun hc => h (List.mem_cons_of_mem c hc))]

theorem pyDeleteAll_login {ls : PyStr} (h : '/' ∉ ls) :
    pyDeleteAll (pys "/login") (pys "/login " ++ ls) = ' ' :: ls := by
  have hlen : (pys "/login " ++ ls).length = ls.length + 6 + 1 := by
    have h7 : (pys "/login ").length = 7 := rfl
    rw [List.length_append, h7]
    omega
  rw [pyDeleteAll, hlen]
  show pyDeleteAllFuel (pys "/login") (ls.length + 6 + 1)
    ('/' :: 'l' :: 'o' :: 'g' :: 'i' :: 'n' :: ' ' :: ls) = ' ' :: ls
  rw [pyDeleteAllFuel, if_pos ⟨by decide, rfl⟩]
  show pyDeleteAllFuel (pys "/login") (ls.length + 5 + 1) (' ' :: ls) =
    ' ' :: ls
  rw [pyDeleteAllFuel, if_neg (fun hc => Bool.noConfusion hc.2)]
  show ' ' :: pyDeleteAllFuel ('/' :: pys "login") (ls.length + 5) ls =
    ' ' :: ls
  rw [pyDeleteAllFuel_not_mem h]


/-- Parsing a `"/login <token>"` submission: when the token has no
whitespace and its lower-casing contains neither whitespace nor `/`,
`SlashCommand.attempt` matches `SlashLogin` and invokes the callback on
the single lower-cased argument. -/
theorem attempt_login_parse (env : Env) (d : Bool) {s : PyStr}
    (hne : s ≠ [])
    (hls : ∀ c ∈ pyLower s, isSpaceChar c = false ∧ c ≠ '/') :
    SlashCommand.attempt SlashLogin env d (pys "/login " ++ s) =
      some (SlashLogin.callback env d [pyLower s]) := by
  have hlsne : pyLower s ≠ [] := by
    simpa [pyLower] using hne
  have hlow : pyLower (pys "/login " ++ s) = pys "/login " ++ pyLower s := by
    rw [pyLower, List.map_append]
    rfl
  have hstrip2 : pyStrip (pys "/login " ++ pyLower s) =
      pys "/login " ++ pyLower s := by
    apply pyStrip_eq_self_of_ends
    · intro c hc
      injection hc with h2
      rw [← h2]
      rfl
    · intro c hc
      rw [List.getLast?_append] at hc
      obtain ⟨y, hy⟩ : ∃ y, (pyLower s).getLast? = some y := by
        cases hg : (pyLower s).getLast? with
        | none => exact absurd (List.getLast?_eq_none_iff.mp hg) hlsne
        | some y => exact ⟨y, rfl⟩
      rw [hy, Option.or_some] at hc
      injection hc with h2
      rw [← h2]
      exact (hls y (List.mem_of_getLast?_eq_some hy)).1
  have hnospace : ∀ c ∈ pyLower s, c ≠ ' ' := by
    intro c hc heq
    have := (hls c hc).1
    rw [heq] at this
    cases this
  have hnoslash : '/' ∉ pyLower s := fun hmem => (hls '/' hmem).2 rfl
  simp only [SlashCommand.attempt]
  rw [hlow, hstrip2]
  rw [if_pos (show pyStartsWith ('/' :: SlashLogin.NAME)
    (pys "/login " ++ pyLower s) = true from rfl)]
  rw [show ('/' :: SlashLogin.NAME) = pys "/login" from rfl]
  rw [pyDeleteAll_login hnoslash]
  simp only [pySplitSpace, pySplitSpace_no_space hnospace]
  simp only [if_true]
  simp only [List.map_cons, List.map_nil,
    pyStrip_eq_self_of_all (fun c hc => (hls c hc).1)]
  show some (SlashLogin.callback env d
    (List.filter (fun a => !a.isEmpty) [pyStrip [], pyLower s])) = _
  rw [show pyStrip ([] : PyStr) = [] from rfl]
  rw [List.filter_cons, List.filter_cons]
  simp only [List.isEmpty_nil, Bool.not_true, List.filter_nil]
  rw [if_neg (by decide)]
  rw [if_pos (by simp [List.isEmpty_eq_false.mpr hlsne])]


/-- C3 amended: for a validated submission `"/login s"` (where `s` is
a non-empty token without whitespace whose lower-casing contains no
whitespace or `/`): if the **lower-cased** `s` equals the configured
secret, the deity flag becomes true and a redirect is returned;
otherwise a terminal 401 with the configured failure message is
returned and the flag is unchanged; in both cases the store is
unchanged and no memory is created.  (The source lower-cases the whole
submission before extracting the secret attempt.) -/
theorem login_contract (env : Env) (st : State) (s : PyStr)
    (hne : s ≠ [])
    (hs : ∀ c ∈ s, isSpaceChar c = false)
    (hls : ∀ c ∈ pyLower s, isSpaceChar c = false ∧ c ≠ '/')
    (hv : validate env.cfg st.repo (pys "/login " ++ s) = none) :
    (pyLower s = env.cfg.whisperSecret →
      new_memory env st (pys "/login " ++ s) =
        .ok ⟨.redirect, st.repo, true, none⟩) ∧
    (pyLower s ≠ env.cfg.whisperSecret →
      new_memory env st (pys "/login " ++ s) =
        .ok ⟨.message env.cfg.loginFail 401, st.repo, st.deity, none⟩) := by
  have hstrip : pyStrip (pys "/login " ++ s) = pys "/login " ++ s := by
    apply pyStrip_eq_self_of_ends
    · intro c hc
      injection hc with h2
      rw [← h2]
      rfl
    · intro c hc
      rw [List.getLast?_append] at hc
      obtain ⟨y, hy⟩ : ∃ y, s.getLast? = some y := by
        cases hg : s.getLast? with
        | none => exact absurd (List.getLast?_eq_none_iff.mp hg) hne
        | some y => exact ⟨y, rfl⟩
      rw [hy, Option.or_some] at hc
      injection hc with h2
      rw [← h2]
      exact hs y (List.mem_of_getLast?_eq_some hy)
  have hatt := attempt_login_parse env st.deity hne hls
  constructor
  · intro hsec
    have hcb : SlashLogin.callback env st.deity [pyLower s] =
        .ok (.serveResponse .redirect, true) := by
      simp only [SlashLogin.callback, if_pos hsec]
    have hd : dispatchLoop env st.deity (pys "/login " ++ s) slash_commands =
        .ok (some (.serveResponse .redirect), true) := by
      simp only [slash_commands, dispatchLoop, hatt, hcb]
    simp only [new_memory.eq_def, hstrip, hv, hd]
  · intro hsec
    have hcb : SlashLogin.callback env st.deity [pyLower s] =
        .ok (.serveResponse (.message env.cfg.loginFail 401), st.deity) := by
      simp only [SlashLogin.callback, if_neg hsec]
    have hd : dispatchLoop env st.deity (pys "/login " ++ s) slash_commands =
        .ok (some (.serveResponse (.message env.cfg.loginFail 401)),
          st.deity) := by
      simp only [slash_commands, dispatchLoop, hatt, hcb]
    simp only [new_memory.eq_def, hstrip, hv, hd]

/-- C3 counterexample: with configured secret `"abc"`, the submission
`"/login ABC"` carries `s = "ABC" ≠ "abc"`, yet the code logs the
caller in (redirect, deity flag set) instead of the claimed 401 with
the flag unchanged, because dispatch lower-cases the text before the
comparison. -/
theorem login_case_fold_cex :
    new_memory sampleEnv ⟨[], false⟩ (pys "/login ABC") =
      .ok ⟨.redirect, [], true, none⟩ ∧
    pys "ABC" ≠ sampleCfg.whisperSecret :=
  ⟨rfl, by decide⟩

/-- Witness for the amended C3 at a concrete input: `"/login abc"`
with secret `"abc"` logs in. -/
theorem login_contract_witness :
    new_memory sampleEnv ⟨[], false⟩ (pys "/login abc") =
      .ok ⟨.redirect, [], true, none⟩ :=
  (login_contract sampleEnv ⟨[], false⟩ (pys "abc") (by decide) (by decide)
    (by decide) rfl).1 (by decide)


end Staticfuzz
